import Mathlib

/-!
Verification development for the jiramd synchronization engine.

This file embeds, as executable Lean definitions, the parts of the Go source
relevant to the sync-state data model and algorithms:

* `internal/domain/ticket.go` — `TicketKey`, `NewTicketKey`, `ProjectKey`,
  `Ticket.ContentHash` (the byte string written into the MD5 hasher);
* `internal/domain` sync entities — `SyncTimestamp`, `SyncStatus`,
  `TicketState` with `NewTicketState`, `MarkLocalModified`, `DetectConflict`,
  `UpdateSynced`;
* `internal/infrastructure/sqlite/database.go` — the `StateRepository`
  operations `SaveTicketState`, `GetTicketState`, `DeleteProjectState`,
  `BeginTransaction`/`Commit`/`Rollback`, and the timestamp codec
  `formatTimestamp`/`parseTimestamp`;
* `internal/infrastructure/jira/errors.go` and `client.go` — the two
  `mapHTTPError` translation functions and `containsStatusCode`.

Go `time.Time` values are modelled as natural numbers of nanoseconds since
the Go zero time (January 1, year 1, UTC), so `t.IsZero()` corresponds to
the value `0` and the Unix epoch is a distinct positive constant.  `.UTC()`
normalization does not change the instant, so it is the identity here.
-/

/-- A Go `time.Time` instant: nanoseconds since the Go zero time
(January 1, year 1, UTC).  `IsZero` corresponds to the value `0`. -/
abbrev GoTime := Nat

/-- The Unix epoch (1970-01-01 00:00:00 UTC) expressed as a `GoTime`:
62135596800 seconds after the Go zero time.  Distinct from the zero value. -/
def unixEpochNanos : GoTime := 62135596800 * 1000000000

/-- Go's `time.Time.After`: strict comparison of instants. -/
def goAfter (a b : GoTime) : Bool := b < a

/-- Domain sentinel errors from `internal/domain/errors.go`.  The Go code
wraps them with `fmt.Errorf("%w: ...")`; `errors.Is` recovers the sentinel,
which is what this model keeps. -/
inductive DomainErr where
  | notFound
  | invalidInput
  | conflict
  | unauthorized
  | invalidTicketKey
  | invalidFieldValue
  | syncConflict
  | invalidTimestamp
  | emptyKey
  | invalidOperation
deriving DecidableEq, Repr

/-- `domain.SyncTimestamp` — a value object wrapping a UTC instant
(`sync.go`).  `NewSyncTimestamp` calls `.UTC()`, which does not change the
instant, so construction is the identity on the wrapped value. -/
structure SyncTimestamp where
  value : GoTime
deriving DecidableEq, Repr

/-- `domain.NewSyncTimestamp(t)` — normalizes to UTC (identity on the instant). -/
def NewSyncTimestamp (t : GoTime) : SyncTimestamp := ⟨t⟩

/-- `SyncTimestamp.After(other)` — strict `time.Time.After` on the wrapped values. -/
def SyncTimestamp.After (st other : SyncTimestamp) : Bool :=
  goAfter st.value other.value

/-- `SyncTimestamp.Before(other)`. -/
def SyncTimestamp.Before (st other : SyncTimestamp) : Bool :=
  st.value < other.value

/-- `SyncTimestamp.IsZero()`. -/
def SyncTimestamp.IsZero (st : SyncTimestamp) : Bool :=
  st.value == 0

/-- `domain.SyncStatus` — the six declared status constants (`sync.go`). -/
inductive SyncStatus where
  | inSync
  | localModified
  | remoteModified
  | conflict
  | pending
  | error
deriving DecidableEq, Repr

/-! ## TicketKey (`internal/domain/ticket.go`) -/

/-- `[A-Z]` character class. -/
def isUpperAZ (c : Char) : Bool := 'A' ≤ c && c ≤ 'Z'

/-- `\d` (ASCII digit) character class. -/
def isDigit09 (c : Char) : Bool := '0' ≤ c && c ≤ '9'

/-- `[A-Z0-9]` character class. -/
def isUpperOrDigit (c : Char) : Bool := isUpperAZ c || isDigit09 c

/-- The project part of `ticketKeyPattern`: `[A-Z][A-Z0-9]{1,9}` as a full
match of the char list (2–10 characters total). -/
def projPartOk (l : List Char) : Bool :=
  match l with
  | [] => false
  | c :: rest =>
    isUpperAZ c && decide (1 ≤ rest.length) && decide (rest.length ≤ 9)
      && rest.all isUpperOrDigit

/-- The number part of `ticketKeyPattern`: `\d+` as a full match. -/
def numPartOk (l : List Char) : Bool :=
  !l.isEmpty && l.all isDigit09

/-- `ticketKeyPattern.MatchString` for `^[A-Z][A-Z0-9]{1,9}-\d+$`
(`ticket.go:17`).  Neither character class contains `-`, so a string
matches exactly when the text before its first `-` is a valid project part
and everything after that first `-` is one or more digits. -/
def ticketKeyMatch (s : String) : Bool :=
  match s.data.dropWhile (fun c => c ≠ '-') with
  | '-' :: digits =>
    projPartOk (s.data.takeWhile (fun c => c ≠ '-')) && numPartOk digits
  | _ => false

/-- Go `unicode.IsSpace` restricted to the ASCII whitespace characters
(the only ones `strings.TrimSpace` can strip from the inputs considered
here; none of `A`–`Z`, `0`–`9`, `-` is whitespace under either reading). -/
def isSpaceGo (c : Char) : Bool :=
  c = ' ' || c = '\t' || c = '\n' || c = Char.ofNat 11 || c = Char.ofNat 12
    || c = '\r'

/-- Go `strings.TrimSpace`: drop leading and trailing whitespace. -/
def trimSpace (s : String) : String :=
  String.mk (((s.data.dropWhile isSpaceGo).reverse.dropWhile isSpaceGo).reverse)

/-- `domain.TicketKey` — value object wrapping the validated string
(`ticket.go:22`). -/
structure TicketKey where
  value : String
deriving DecidableEq, Repr

/-- `TicketKey.IsZero()` (`ticket.go:56`). -/
def TicketKey.IsZero (tk : TicketKey) : Bool := tk.value == ""

/-- `domain.NewTicketKey` (`ticket.go:28`): trim whitespace, reject empty
input with `ErrEmptyKey`, reject a pattern mismatch with
`ErrInvalidTicketKey`, otherwise wrap the trimmed string. -/
def NewTicketKey (key : String) : Except DomainErr TicketKey :=
  let key := trimSpace key
  if key = "" then .error .emptyKey
  else if ticketKeyMatch key then .ok ⟨key⟩
  else .error .invalidTicketKey

/-- `TicketKey.ProjectKey()` (`ticket.go:47`): `strings.Split(value, "-")`
and take the head, i.e. the prefix of the value before its first `-`
(the whole value when there is no `-`). -/
def TicketKey.ProjectKey (tk : TicketKey) : String :=
  String.mk (tk.value.data.takeWhile (fun c => c ≠ '-'))

/-! ## TicketState and the conflict-detection algorithm (`sync.go`) -/

/-- `domain.TicketState` — sync state for one ticket (`sync.go`). -/
structure TicketState where
  projectKey : String
  ticketKey : TicketKey
  jiraUpdated : SyncTimestamp
  localModified : Option SyncTimestamp
  lastSynced : SyncTimestamp
  contentHash : String
  status : SyncStatus
deriving DecidableEq, Repr

/-- `domain.NewTicketState(projectKey, ticketKey, jiraUpdated)`.  The Go
code reads the clock for `LastSynced`; the instant it reads is the explicit
`now` argument here. -/
def NewTicketState (projectKey : String) (ticketKey : TicketKey)
    (jiraUpdated : GoTime) (now : GoTime) : Except DomainErr TicketState :=
  let projectKey := trimSpace projectKey
  if projectKey = "" then .error .emptyKey
  else if ticketKey.IsZero then .error .invalidTicketKey
  else .ok
    { projectKey := projectKey
      ticketKey := ticketKey
      jiraUpdated := NewSyncTimestamp jiraUpdated
      localModified := none
      lastSynced := NewSyncTimestamp now
      contentHash := ""
      status := .inSync }

/-- `TicketState.MarkLocalModified(modifiedAt)`: store the UTC-normalized
timestamp and set the status to `local_modified` (unconditionally). -/
def TicketState.MarkLocalModified (ts : TicketState) (modifiedAt : GoTime) :
    TicketState :=
  { ts with
    localModified := some (NewSyncTimestamp modifiedAt)
    status := .localModified }

/-- `TicketState.DetectConflict()`: returns the (possibly mutated) state and
the boolean result.  No local modification means no conflict; otherwise a
conflict exists exactly when both `LocalModified` and `JiraUpdated` are
strictly after `LastSynced`, and in that case the status is set to
`conflict`. -/
def TicketState.DetectConflict (ts : TicketState) : TicketState × Bool :=
  match ts.localModified with
  | none => (ts, false)
  | some lm =>
    if lm.After ts.lastSynced && ts.jiraUpdated.After ts.lastSynced then
      ({ ts with status := .conflict }, true)
    else
      (ts, false)

/-- `TicketState.UpdateSynced(contentHash, jiraUpdated)`.  The clock read
for `LastSynced` is the explicit `now` argument. -/
def TicketState.UpdateSynced (ts : TicketState) (contentHash : String)
    (jiraUpdated : GoTime) (now : GoTime) : TicketState :=
  { ts with
    lastSynced := NewSyncTimestamp now
    contentHash := contentHash
    jiraUpdated := NewSyncTimestamp jiraUpdated
    localModified := none
    status := .inSync }

/-- States reachable from a successful `NewTicketState` by the three
mutating operations of `TicketState` (the lifecycle under scrutiny in the
invariants claim). -/
inductive ReachableTicketState : TicketState → Prop where
  | new (projectKey : String) (ticketKey : TicketKey) (jiraUpdated now : GoTime)
      (ts : TicketState)
      (h : NewTicketState projectKey ticketKey jiraUpdated now = .ok ts) :
      ReachableTicketState ts
  | mark (ts : TicketState) (modifiedAt : GoTime)
      (h : ReachableTicketState ts) :
      ReachableTicketState (ts.MarkLocalModified modifiedAt)
  | detect (ts : TicketState) (h : ReachableTicketState ts) :
      ReachableTicketState ts.DetectConflict.fst
  | synced (ts : TicketState) (contentHash : String) (jiraUpdated now : GoTime)
      (h : ReachableTicketState ts) :
      ReachableTicketState (ts.UpdateSynced contentHash jiraUpdated now)

/-! ## Ticket content hashing (`internal/domain/ticket.go`) -/

/-- `strings.Join(labels, ",")`. -/
def joinComma : List String → String
  | [] => ""
  | [s] => s
  | s :: t :: rest => s ++ "," ++ joinComma (t :: rest)

/-- Key order used by `sort.Strings(keys)` before hashing custom fields,
lifted to the key/value pairs. -/
def cfKeyLE (a b : String × String) : Prop := a.1 ≤ b.1

instance : DecidableRel cfKeyLE := fun a b => inferInstanceAs (Decidable (a.1 ≤ b.1))

instance : IsTotal (String × String) cfKeyLE := ⟨fun a b => le_total a.1 b.1⟩

instance : IsTrans (String × String) cfKeyLE := ⟨fun _ _ _ h1 h2 => le_trans h1 h2⟩

/-- The custom-field pairs in sorted key order, as produced by collecting the
map keys, `sort.Strings`, and looking each key up (`ticket.go:127-137`).
Insertion sort is stable and compares keys only; with the map invariant
(pairwise-distinct keys) the result is independent of insertion order. -/
def sortCF (l : List (String × String)) : List (String × String) :=
  List.insertionSort cfKeyLE l

/-- `domain.Ticket` (`ticket.go:63`).  `CustomFields` is a Go map from name
to `FieldValue`; it is modelled as an association list whose entries carry
the `fmt.Sprintf("%v", value.Raw())` rendering of each field value (the only
form in which a value reaches the hash), with the Go-map invariant that keys
are pairwise distinct.  The list order models the (arbitrary) insertion
order. -/
structure Ticket where
  key : TicketKey
  summary : String
  description : String
  status : String
  issueType : String
  priority : String
  assignee : String
  reporter : String
  labels : List String
  created : GoTime
  updated : GoTime
  customFields : List (String × String)
deriving DecidableEq, Repr

/-- The `custom:%s=%v\n` lines written for the sorted custom fields
(`ticket.go:134-137`). -/
def customFieldLines : List (String × String) → String
  | [] => ""
  | (k, v) :: rest => "custom:" ++ k ++ "=" ++ v ++ "\n" ++ customFieldLines rest

/-- `Ticket.ContentHash()` (`ticket.go:116-140`): the exact byte string the
method writes into the MD5 hasher.  The digest returned by the Go code is
`hex.EncodeToString(md5.Sum(thisString))`; MD5 and hex encoding are fixed
deterministic functions of this pre-image, so equal pre-images give equal
digests, and every digest difference comes from a pre-image difference.
Note the method hashes summary, description, status, priority, assignee,
labels and the sorted custom fields — `IssueType` and `Reporter` do not
appear. -/
def Ticket.contentHashInput (t : Ticket) : String :=
  "summary:" ++ t.summary ++ "\n" ++
  "description:" ++ t.description ++ "\n" ++
  "status:" ++ t.status ++ "\n" ++
  "priority:" ++ t.priority ++ "\n" ++
  "assignee:" ++ t.assignee ++ "\n" ++
  "labels:" ++ joinComma t.labels ++ "\n" ++
  customFieldLines (sortCF t.customFields)

/-- A string with no `\n` character (a single "line" in the hash pre-image). -/
def NoNewline (s : String) : Prop := ∀ c ∈ s.data, c ≠ '\n'

/-- A string with no `=` character (unambiguous as a custom-field key). -/
def NoEquals (s : String) : Prop := ∀ c ∈ s.data, c ≠ '='

instance (s : String) : Decidable (NoNewline s) :=
  inferInstanceAs (Decidable (∀ c ∈ s.data, c ≠ '\n'))

instance (s : String) : Decidable (NoEquals s) :=
  inferInstanceAs (Decidable (∀ c ∈ s.data, c ≠ '='))

/-! ## SQLite state store (`internal/infrastructure/sqlite/database.go`) -/

/-- The stored TEXT form of a timestamp column, as written by
`formatTimestamp` (`database.go:748`).  Exactly two shapes occur: the
literal sentinel `"1970-01-01 00:00:00"` (written for zero times; no
fractional part), and the `"2006-01-02 15:04:05.000"` rendering of a
non-zero instant at millisecond precision (always carrying a 3-digit
fractional part, hence never literally equal to the sentinel).  The model
keeps the information content of the string: which shape it is, and the
instant truncated to milliseconds. -/
inductive SqlTimestamp where
  | epochSentinel
  | msec (v : Nat)
deriving DecidableEq, Repr

/-- `formatTimestamp` (`database.go:748`): zero times become the sentinel,
everything else is rendered in UTC at millisecond precision (`Format`
truncates the fractional seconds). -/
def formatTimestamp (t : GoTime) : SqlTimestamp :=
  if t = 0 then .epochSentinel
  else .msec (t / 1000000)

/-- `parseTimestamp` (`database.go:764`): the sentinel (and the empty
string, which the save path never writes) parses to the zero time; the
millisecond rendering fails the RFC3339 attempt (space separator, no zone)
and is recovered exactly by the `"2006-01-02 15:04:05.000"` layout, already
in UTC. -/
def parseTimestamp : SqlTimestamp → GoTime
  | .epochSentinel => 0
  | .msec v => v * 1000000

/-- A row of `ticket_sync_state` as the queries here read and write it
(`created_at`/`updated_at` are maintained by SQL defaults and never read
back by this repository). -/
structure TicketRow where
  lastSynced : SqlTimestamp
  lastModifiedLocal : SqlTimestamp
  lastModifiedJira : SqlTimestamp
  isDirty : Bool
  conflictDetected : Bool
deriving DecidableEq, Repr

/-- A row of `project_sync_state`; the two sync timestamps are nullable
(`formatTimestampNullable` writes NULL for zero times). -/
structure ProjectRow where
  lastFullSync : Option SqlTimestamp
  lastIncrementalSync : Option SqlTimestamp
  ticketCount : Int
deriving DecidableEq, Repr

/-- `repository.TicketSyncState` (`internal/domain/repository/state.go`):
the in-memory state the repository saves and returns. -/
structure TicketSyncState where
  ticketKey : String
  lastSynced : GoTime
  lastModifiedLocal : GoTime
  lastModifiedJira : GoTime
  isDirty : Bool
  conflictDetected : Bool
deriving DecidableEq, Repr

/-- The persisted tables, keyed by primary key.  Both tables are modelled
as partial maps. -/
structure Store where
  tickets : String → Option TicketRow
  projects : String → Option ProjectRow

/-- The database plus the optional active transaction.  `BeginTransaction`
stores an `*sql.Tx` in the context; operations then run on that
transaction's view of the data, which SQLite makes visible to later
statements of the same transaction but not to the connection outside it
until `Commit`.  The transaction view starts as a copy of the committed
store. -/
structure DBState where
  committed : Store
  tx : Option Store

/-- `getExecutor` (`database.go:699`): the transaction when one is in the
context, otherwise the plain connection. -/
def DBState.executorStore (db : DBState) : Store :=
  db.tx.getD db.committed

/-- Write back through the executor chosen by `getExecutor`. -/
def DBState.putExecutor (db : DBState) (st : Store) : DBState :=
  match db.tx with
  | some _ => { db with tx := some st }
  | none => { db with committed := st }

/-- The row written by `SaveTicketState`'s INSERT .. ON CONFLICT DO UPDATE
(`database.go:212-238`): all three timestamps go through `formatTimestamp`. -/
def rowOfState (state : TicketSyncState) : TicketRow :=
  { lastSynced := formatTimestamp state.lastSynced
    lastModifiedLocal := formatTimestamp state.lastModifiedLocal
    lastModifiedJira := formatTimestamp state.lastModifiedJira
    isDirty := state.isDirty
    conflictDetected := state.conflictDetected }

/-- Upsert one ticket row. -/
def Store.upsertTicket (st : Store) (k : String) (row : TicketRow) : Store :=
  { st with tickets := fun q => if q = k then some row else st.tickets q }

/-- `StateRepository.SaveTicketState` (`database.go:202`).  The `state ==
nil` guard has no counterpart for a Lean value; the empty-key guard returns
`ErrEmptyKey`.  Otherwise the row is upserted through the executor. -/
def SaveTicketState (db : DBState) (state : TicketSyncState) :
    Except DomainErr DBState :=
  if state.ticketKey = "" then .error .emptyKey
  else .ok (db.putExecutor
    (db.executorStore.upsertTicket state.ticketKey (rowOfState state)))

/-- `StateRepository.GetTicketState` (`database.go:256`): empty key →
`ErrEmptyKey`; no row → `ErrNotFound`; otherwise the row's columns with the
three timestamps run through `parseTimestamp`. -/
def GetTicketState (db : DBState) (ticketKey : String) :
    Except DomainErr TicketSyncState :=
  if ticketKey = "" then .error .emptyKey
  else
    match db.executorStore.tickets ticketKey with
    | none => .error .notFound
    | some row => .ok
      { ticketKey := ticketKey
        lastSynced := parseTimestamp row.lastSynced
        lastModifiedLocal := parseTimestamp row.lastModifiedLocal
        lastModifiedJira := parseTimestamp row.lastModifiedJira
        isDirty := row.isDirty
        conflictDetected := row.conflictDetected }

/-- `StateRepository.BeginTransaction` (`database.go:634`): rejects nesting
with `ErrInvalidInput`, otherwise opens a transaction whose view starts at
the committed data. -/
def BeginTransaction (db : DBState) : Except DomainErr DBState :=
  match db.tx with
  | some _ => .error .invalidInput
  | none => .ok { db with tx := some db.committed }

/-- `StateRepository.Commit` (`database.go:651`): no active transaction →
`ErrInvalidInput`; otherwise the transaction's view becomes the committed
data. -/
def Commit (db : DBState) : Except DomainErr DBState :=
  match db.tx with
  | none => .error .invalidInput
  | some st => .ok { committed := st, tx := none }

/-- `StateRepository.Rollback` (`database.go:668`): no active transaction →
`ErrInvalidInput`; otherwise the transaction's view is discarded and the
committed data is untouched. -/
def Rollback (db : DBState) : Except DomainErr DBState :=
  match db.tx with
  | none => .error .invalidInput
  | some _ => .ok { db with tx := none }

/-- SQLite's ASCII case folding for `LIKE`: `LIKE` is case-insensitive for
the 26 ASCII letters by default. -/
def foldAZ (c : Char) : Char :=
  if 'a' ≤ c && c ≤ 'z' then Char.ofNat (c.toNat - 32) else c

/-- SQLite `LIKE` matching: `%` matches any run of characters, `_` any
single character, and other pattern characters match one text character up
to ASCII case folding. -/
def sqlLike (p t : List Char) : Bool :=
  match p with
  | [] => t.isEmpty
  | c :: ps =>
    if c = '%' then
      match t with
      | [] => sqlLike ps []
      | x :: ts => sqlLike ps (x :: ts) || sqlLike (c :: ps) ts
    else if c = '_' then
      match t with
      | [] => false
      | _ :: ts => sqlLike ps ts
    else
      match t with
      | [] => false
      | x :: ts => (foldAZ x = foldAZ c) && sqlLike ps ts
termination_by p.length + t.length

/-- `DELETE FROM ticket_sync_state WHERE ticket_key LIKE ? || '-%'` with the
project key bound (`database.go:594`). -/
def Store.deleteTicketsLike (st : Store) (projectKey : String) : Store :=
  { st with
    tickets := fun k =>
      if sqlLike (projectKey.data ++ ['-', '%']) k.data then none
      else st.tickets k }

/-- `DELETE FROM project_sync_state WHERE project_key = ?`
(`database.go:603`), together with the resulting `RowsAffected() > 0`. -/
def Store.deleteProject (st : Store) (p : String) : Store × Bool :=
  match st.projects p with
  | none => (st, false)
  | some _ =>
    ({ st with projects := fun q => if q = p then none else st.projects q },
      true)

/-- `StateRepository.DeleteProjectState` (`database.go:574-630`).  Returns
the post-call database state together with the error, if any.  Outside a
caller transaction the method opens its own transaction, deletes the
project's ticket rows, deletes the project row, and commits only when the
project row existed — `defer tx.Rollback()` undoes the ticket deletions on
the `ErrNotFound` path.  Inside a caller transaction it writes through that
transaction and performs no commit or rollback of its own, so on the
`ErrNotFound` path the ticket deletions remain pending in the caller's
transaction. -/
def DeleteProjectState (db : DBState) (projectKey : String) :
    DBState × Option DomainErr :=
  if projectKey = "" then (db, some .emptyKey)
  else
    match db.tx with
    | none =>
      let st1 := db.committed.deleteTicketsLike projectKey
      match st1.deleteProject projectKey with
      | (st2, true) => ({ committed := st2, tx := none }, none)
      | (_, false) => (db, some .notFound)
    | some pending =>
      let st1 := pending.deleteTicketsLike projectKey
      match st1.deleteProject projectKey with
      | (st2, true) => ({ db with tx := some st2 }, none)
      | (st2, false) => ({ db with tx := some st2 }, some .notFound)

/-! ## Jira HTTP error translation (`internal/infrastructure/jira`) -/

/-- Does `pat` occur at the start of `hay`? (One position of the scanning
loop in `containsStatusCode`.) -/
def matchesAt : List Char → List Char → Bool
  | [], _ => true
  | _ :: _, [] => false
  | p :: ps, h :: hs => (h = p) && matchesAt ps hs

/-- Does `pat` occur anywhere in `hay`? — the inner scanning loop of
`containsStatusCode` (`errors.go:79-87`). -/
def containsSub (hay pat : List Char) : Bool :=
  matchesAt pat hay ||
    match hay with
    | [] => false
    | _ :: hs => containsSub hs pat

/-- `containsStatusCode` (`errors.go:70`): substring search of the code and
of three prose patterns (each of which contains the bare code, so the first
pattern subsumes the rest). -/
def containsStatusCode (errStr code : String) : Bool :=
  [code, "status code " ++ code, "HTTP " ++ code, "status=" ++ code].any
    (fun pattern => containsSub errStr.data pattern.data)

/-- The result of `mapHTTPError` in `errors.go`: either a wrap of a domain
sentinel (`fmt.Errorf("%s: %w", context, sentinel)`, for which `errors.Is`
reports that sentinel) or a wrap of the original error that preserves no
taxonomy sentinel. -/
inductive MappedErr where
  | domainErr (e : DomainErr) (context : String)
  | wrapped (context : String) (original : String)
deriving DecidableEq, Repr

/-- The first `switch` of `mapHTTPError` in `errors.go:37-51`: recover a
status code from the error text by substring search, in the source's case
order 404, 401, 403, 400, 409. -/
def classifyStatusFromString (errStr : String) : Option Nat :=
  if containsStatusCode errStr "404" then some 404
  else if containsStatusCode errStr "401" then some 401
  else if containsStatusCode errStr "403" then some 403
  else if containsStatusCode errStr "400" then some 400
  else if containsStatusCode errStr "409" then some 409
  else none

/-- `mapHTTPError` from `errors.go:23` (the variant `repository.go` applies
to every error of the go-jira client before surfacing it to the core): the
first `switch` recovers a status code from the error text, the second maps
it to a domain sentinel; an unrecognized error is wrapped with context
unchanged.  The `err == nil` fast path is outside this model (the callers
only invoke it on a non-nil error). -/
def mapHTTPErrorStr (err context : String) : MappedErr :=
  match classifyStatusFromString err with
  | none => .wrapped context err
  | some 404 => .domainErr .notFound context
  | some 401 => .domainErr .unauthorized context
  | some 403 => .domainErr .unauthorized context
  | some 400 => .domainErr .invalidInput context
  | some 409 => .domainErr .conflict context
  | some _ => .wrapped context err

/-- The result of `mapHTTPError` in `client.go`: a domain sentinel wrapped
with a fixed message, or the original error wrapped without any sentinel. -/
inductive ClientMappedErr where
  | domainErr (e : DomainErr) (message : String)
  | wrapped (statusCode : Option Nat) (original : String)
deriving DecidableEq, Repr

/-- `mapHTTPError` from `client.go:255`: when a response is present, map by
the actual `resp.StatusCode` (404; 401/403; 409; 400; default wraps); with
no response (`resp == nil`, modelled as `none`) the original error is
wrapped.  The `err == nil` fast path is outside this model. -/
def mapHTTPErrorResp (statusCode : Option Nat) (err : String) :
    ClientMappedErr :=
  match statusCode with
  | none => .wrapped none err
  | some code =>
    if code = 404 then .domainErr .notFound "ticket not found in jira"
    else if code = 401 || code = 403 then
      .domainErr .unauthorized "insufficient permissions"
    else if code = 409 then
      .domainErr .conflict "ticket was modified by another user"
    else if code = 400 then
      .domainErr .invalidInput "invalid ticket data"
    else .wrapped (some code) err

/-- The claim's key pattern, `[A-Z][A-Z0-9]+-\\d+` with no upper bound on
the project part — transliterated from the specification's words (not from
the source) to compare against `ticketKeyMatch`. -/
def claimedKeyPattern (s : String) : Bool :=
  match s.data.dropWhile (fun c => c ≠ '-') with
  | '-' :: digits =>
    (match s.data.takeWhile (fun c => c ≠ '-') with
     | [] => false
     | c :: rest =>
       isUpperAZ c && decide (1 ≤ rest.length) && rest.all isUpperOrDigit)
      && numPartOk digits
  | _ => false

/-- Strict variant of the custom-field key order, used to show the sorted
key order is unique once keys are distinct. -/
def cfKeyLT (a b : String × String) : Prop := a.1 < b.1

instance : IsAntisymm (String × String) cfKeyLT :=
  ⟨fun _ _ h1 h2 => absurd (lt_trans h1 h2) (lt_irrefl _)⟩

/-! ## Theorems -/

/-- Equation of `DetectConflict` when no local modification is recorded. -/
theorem detectConflict_none (ts : TicketState) (h : ts.localModified = none) :
    ts.DetectConflict = (ts, false) := by
  unfold TicketState.DetectConflict
  rw [h]

/-- Equation of `DetectConflict` when a local modification is recorded. -/
theorem detectConflict_some (ts : TicketState) (lm : SyncTimestamp)
    (h : ts.localModified = some lm) :
    ts.DetectConflict =
      if lm.After ts.lastSynced && ts.jiraUpdated.After ts.lastSynced then
        ({ ts with status := .conflict }, true)
      else (ts, false) := by
  unfold TicketState.DetectConflict
  rw [h]

/-- C1: `DetectConflict` returns true iff `LocalModified` is set and both
`LocalModified` and `JiraUpdated` are strictly after `LastSynced`; a nil
`LocalModified` gives false regardless of the other fields, and a timestamp
exactly equal to `LastSynced` (on either side) never counts as after. -/
theorem detectConflict_characterization (ts : TicketState) :
    (ts.DetectConflict.snd = true ↔
      ∃ lm, ts.localModified = some lm ∧
        lm.After ts.lastSynced = true ∧
        ts.jiraUpdated.After ts.lastSynced = true)
    ∧ (ts.localModified = none → ts.DetectConflict.snd = false)
    ∧ (∀ lm, ts.localModified = some lm → lm.value = ts.lastSynced.value →
        ts.DetectConflict.snd = false)
    ∧ (ts.jiraUpdated.value = ts.lastSynced.value →
        ts.DetectConflict.snd = false) := by
  refine ⟨?_, ?_, ?_, ?_⟩
  · constructor
    · intro h
      rcases hlm : ts.localModified with _ | lm
      · rw [detectConflict_none ts hlm] at h
        simp at h
      · rw [detectConflict_some ts lm hlm] at h
        by_cases hc :
            (lm.After ts.lastSynced && ts.jiraUpdated.After ts.lastSynced) = true
        · rcases Bool.and_eq_true_iff.mp hc with ⟨h1, h2⟩
          exact ⟨lm, rfl, h1, h2⟩
        · rw [if_neg (by simpa using hc)] at h
          simp at h
    · rintro ⟨lm, hlm, h1, h2⟩
      rw [detectConflict_some ts lm hlm]
      rw [if_pos (by simp [h1, h2])]
  · intro hlm
    rw [detectConflict_none ts hlm]
  · intro lm hlm heq
    rw [detectConflict_some ts lm hlm]
    have hA : lm.After ts.lastSynced = false := by
      simp [SyncTimestamp.After, goAfter, heq]
    rw [if_neg (by simp [hA])]
  · intro heq
    rcases hlm : ts.localModified with _ | lm
    · rw [detectConflict_none ts hlm]
    · rw [detectConflict_some ts lm hlm]
      have hA : ts.jiraUpdated.After ts.lastSynced = false := by
        simp [SyncTimestamp.After, goAfter, heq]
      rw [if_neg (by simp [hA])]

/-- Witness for C1 at a concrete state: both timestamps strictly after the
last sync, so the conflict is reported. -/
theorem detectConflict_characterization_witness :
    (({ projectKey := "JMD", ticketKey := ⟨"JMD-1"⟩,
        jiraUpdated := ⟨10⟩, localModified := some ⟨20⟩, lastSynced := ⟨5⟩,
        contentHash := "", status := .inSync } : TicketState)).DetectConflict.snd
      = true :=
  (detectConflict_characterization _).1.mpr ⟨⟨20⟩, rfl, by decide, by decide⟩

/-- C2 counterexample: a state (fields in declaration order: project key,
ticket key, jiraUpdated, localModified, lastSynced, contentHash, status)
whose `JiraUpdated` is strictly after `LastSynced`, marked locally modified
at an instant strictly after `LastSynced` — the immediate-conflict
condition of the claim holds, yet `MarkLocalModified` sets the status to
`local_modified`, not `conflict`. -/
theorem markLocalModified_no_conflict_counterexample :
    (TicketState.mk "JMD" ⟨"JMD-1"⟩ ⟨10⟩ none ⟨5⟩ "" .inSync).jiraUpdated.After
      (TicketState.mk "JMD" ⟨"JMD-1"⟩ ⟨10⟩ none ⟨5⟩ "" .inSync).lastSynced = true
    ∧ goAfter 20
        (TicketState.mk "JMD" ⟨"JMD-1"⟩ ⟨10⟩ none ⟨5⟩ "" .inSync).lastSynced.value
        = true
    ∧ ((TicketState.mk "JMD" ⟨"JMD-1"⟩ ⟨10⟩ none ⟨5⟩ "" .inSync).MarkLocalModified
        20).status = .localModified
    ∧ ((TicketState.mk "JMD" ⟨"JMD-1"⟩ ⟨10⟩ none ⟨5⟩ "" .inSync).MarkLocalModified
        20).status ≠ .conflict :=
  ⟨by decide, by decide, rfl, by decide⟩

/-- C2 (amended): `MarkLocalModified(at)` sets `LocalModified` to `at`
(normalized to UTC) and `Status` to `local_modified` unconditionally — also
when `at` and `JiraUpdated` are both strictly after `LastSynced`; the
`conflict` status is only ever set by a later `DetectConflict` call.  All
other fields are unchanged. -/
theorem markLocalModified_spec (ts : TicketState) (modifiedAt : GoTime) :
    (ts.MarkLocalModified modifiedAt).localModified
        = some (NewSyncTimestamp modifiedAt)
    ∧ (ts.MarkLocalModified modifiedAt).status = .localModified
    ∧ (ts.MarkLocalModified modifiedAt).projectKey = ts.projectKey
    ∧ (ts.MarkLocalModified modifiedAt).ticketKey = ts.ticketKey
    ∧ (ts.MarkLocalModified modifiedAt).jiraUpdated = ts.jiraUpdated
    ∧ (ts.MarkLocalModified modifiedAt).lastSynced = ts.lastSynced
    ∧ (ts.MarkLocalModified modifiedAt).contentHash = ts.contentHash :=
  ⟨rfl, rfl, rfl, rfl, rfl, rfl, rfl⟩

/-- C5: `UpdateSynced(contentHash, jiraUpdatedAt)` sets `LastSynced` to the
current time, `ContentHash` and `JiraUpdated` to the arguments, clears
`LocalModified` and sets the status to `in_sync` — for every prior state,
whatever its status (including `conflict`). -/
theorem updateSynced_spec (ts : TicketState) (ch : String)
    (jiraUpdatedAt now : GoTime) :
    (ts.UpdateSynced ch jiraUpdatedAt now).lastSynced = NewSyncTimestamp now
    ∧ (ts.UpdateSynced ch jiraUpdatedAt now).contentHash = ch
    ∧ (ts.UpdateSynced ch jiraUpdatedAt now).jiraUpdated
        = NewSyncTimestamp jiraUpdatedAt
    ∧ (ts.UpdateSynced ch jiraUpdatedAt now).localModified = none
    ∧ (ts.UpdateSynced ch jiraUpdatedAt now).status = .inSync
    ∧ (ts.UpdateSynced ch jiraUpdatedAt now).projectKey = ts.projectKey
    ∧ (ts.UpdateSynced ch jiraUpdatedAt now).ticketKey = ts.ticketKey :=
  ⟨rfl, rfl, rfl, rfl, rfl, rfl, rfl⟩

/-- C10: every state reachable from a successful `NewTicketState` through
`MarkLocalModified`, `DetectConflict` and `UpdateSynced` has status
`in_sync`, `local_modified` or `conflict` — `remote_modified`, `pending`
and `error` are never produced; moreover with `LocalModified` nil (a
remote-only change) `DetectConflict` leaves the state, in particular its
status, untouched. -/
theorem ticketState_status_invariant :
    (∀ ts, ReachableTicketState ts →
      ts.status = .inSync ∨ ts.status = .localModified
        ∨ ts.status = .conflict)
    ∧ (∀ ts : TicketState, ts.localModified = none →
        ts.DetectConflict.fst = ts) := by
  constructor
  · intro ts h
    induction h with
    | new projectKey ticketKey jiraUpdated now ts hok =>
      unfold NewTicketState at hok
      by_cases h1 : trimSpace projectKey = ""
      · rw [if_pos h1] at hok
        exact absurd hok (by simp)
      · rw [if_neg h1] at hok
        by_cases h2 : ticketKey.IsZero = true
        · rw [if_pos h2] at hok
          exact absurd hok (by simp)
        · rw [if_neg h2] at hok
          have := Except.ok.inj hok
          left
          rw [← this]
    | mark ts modifiedAt h ih =>
      right; left; rfl
    | detect ts h ih =>
      rcases hlm : ts.localModified with _ | lm
      · rw [detectConflict_none ts hlm]
        exact ih
      · rw [detectConflict_some ts lm hlm]
        by_cases hc :
            (lm.After ts.lastSynced && ts.jiraUpdated.After ts.lastSynced) = true
        · rw [if_pos hc]
          right; right; rfl
        · rw [if_neg (by simpa using hc)]
          exact ih
    | synced ts contentHash jiraUpdated now h ih =>
      left; rfl
  · intro ts hlm
    rw [detectConflict_none ts hlm]

/-- Witness for C10 at a concrete lifecycle: create, mark dirty, detect the
conflict; the resulting status stays within the three produced values. -/
theorem ticketState_status_invariant_witness :
    ((TicketState.mk "JMD" ⟨"JMD-1"⟩ ⟨10⟩ none ⟨5⟩ ""
        .inSync).MarkLocalModified 20).DetectConflict.fst.status = .inSync
    ∨ ((TicketState.mk "JMD" ⟨"JMD-1"⟩ ⟨10⟩ none ⟨5⟩ ""
        .inSync).MarkLocalModified 20).DetectConflict.fst.status = .localModified
    ∨ ((TicketState.mk "JMD" ⟨"JMD-1"⟩ ⟨10⟩ none ⟨5⟩ ""
        .inSync).MarkLocalModified 20).DetectConflict.fst.status = .conflict :=
  ticketState_status_invariant.1 _
    (.detect _ (.mark _ 20 (.new "JMD" ⟨"JMD-1"⟩ 10 5 _ rfl)))

/-- `takeWhile` over a block of satisfying elements followed by a failing
one returns exactly the block. -/
theorem takeWhile_append_cons {α : Type} (p : α → Bool) (l : List α) (c : α)
    (r : List α) (hl : ∀ a ∈ l, p a = true) (hc : p c = false) :
    (l ++ c :: r).takeWhile p = l := by
  induction l with
  | nil => simp [List.takeWhile_cons, hc]
  | cons a as ih =>
    have ha : p a = true := hl a (by simp)
    simp only [List.cons_append, List.takeWhile_cons, ha, if_true]
    rw [ih (fun x hx => hl x (by simp [hx]))]

/-- `dropWhile` over a block of satisfying elements followed by a failing
one returns the failing element and everything after it. -/
theorem dropWhile_append_cons {α : Type} (p : α → Bool) (l : List α) (c : α)
    (r : List α) (hl : ∀ a ∈ l, p a = true) (hc : p c = false) :
    (l ++ c :: r).dropWhile p = c :: r := by
  induction l with
  | nil => simp [List.dropWhile_cons, hc]
  | cons a as ih =>
    have ha : p a = true := hl a (by simp)
    simp only [List.cons_append, List.dropWhile_cons, ha, if_true]
    exact ih (fun x hx => hl x (by simp [hx]))

/-- `dropWhile` is the identity when no element satisfies the predicate. -/
theorem dropWhile_eq_self_of_all {α : Type} (p : α → Bool) (l : List α)
    (h : ∀ a ∈ l, p a = false) : l.dropWhile p = l := by
  cases l with
  | nil => rfl
  | cons a as => simp [List.dropWhile_cons, h a (by simp)]

/-- `strings.TrimSpace` does not change a string with no whitespace. -/
theorem trimSpace_eq_self (s : String) (h : ∀ c ∈ s.data, isSpaceGo c = false) :
    trimSpace s = s := by
  unfold trimSpace
  rw [dropWhile_eq_self_of_all _ _ h]
  rw [dropWhile_eq_self_of_all _ _ (fun a ha => h a (List.mem_reverse.mp ha))]
  rw [List.reverse_reverse]

/-- Characters of the `[A-Z0-9]` class are not whitespace. -/
theorem not_space_of_upperOrDigit (c : Char) (h : isUpperOrDigit c = true) :
    isSpaceGo c = false := by
  unfold isSpaceGo
  by_cases h1 : c = ' '
  · subst h1; exact absurd h (by decide)
  by_cases h2 : c = '\t'
  · subst h2; exact absurd h (by decide)
  by_cases h3 : c = '\n'
  · subst h3; exact absurd h (by decide)
  by_cases h4 : c = Char.ofNat 11
  · subst h4; exact absurd h (by decide)
  by_cases h5 : c = Char.ofNat 12
  · subst h5; exact absurd h (by decide)
  by_cases h6 : c = '\r'
  · subst h6; exact absurd h (by decide)
  simp [h1, h2, h3, h4, h5, h6]

/-- C4 counterexample: `"ABCDEFGHIJK-1"` has an 11-character project part,
so it matches the claim's pattern `[A-Z][A-Z0-9]+-\d+`, yet `NewTicketKey`
rejects it — the source pattern bounds the project part at 10 characters. -/
theorem newTicketKey_pattern_counterexample :
    claimedKeyPattern "ABCDEFGHIJK-1" = true
    ∧ NewTicketKey "ABCDEFGHIJK-1" = .error .invalidTicketKey :=
  ⟨rfl, rfl⟩

/-- C4 (amended): for every string matching `[A-Z][A-Z0-9]{1,9}-\d+` (an
uppercase project part of 2 to 10 characters, a dash, then digits),
`NewTicketKey` succeeds with the string itself as the key's value, and
`ProjectKey()` returns the substring before the dash. -/
theorem newTicketKey_valid (s : String) (h : ticketKeyMatch s = true) :
    ∃ tk : TicketKey, NewTicketKey s = .ok tk ∧ tk.value = s ∧
      ∀ proj digits : List Char, s.data = proj ++ '-' :: digits →
        (∀ c ∈ proj, c ≠ '-') → tk.ProjectKey = String.mk proj := by
  have hmatch := h
  unfold ticketKeyMatch at h
  split at h
  case h_2 => exact absurd h (by simp)
  case h_1 digits hd =>
    rcases hP : s.data.takeWhile (fun c => c ≠ '-') with _ | ⟨c0, rest⟩
    · rw [hP] at h
      exact absurd h (by simp [projPartOk])
    rw [hP] at h
    rcases Bool.and_eq_true_iff.mp h with ⟨hproj, hnum⟩
    have hdecomp : s.data = (c0 :: rest) ++ '-' :: digits := by
      rw [← hP, ← hd]
      exact (List.takeWhile_append_dropWhile _ s.data).symm
    have hupper : isUpperAZ c0 = true ∧ rest.all isUpperOrDigit = true := by
      unfold projPartOk at hproj
      rcases Bool.and_eq_true_iff.mp hproj with ⟨h1, h2⟩
      rcases Bool.and_eq_true_iff.mp h1 with ⟨h3, _⟩
      rcases Bool.and_eq_true_iff.mp h3 with ⟨h4, _⟩
      exact ⟨h4, h2⟩
    have hdig : digits.all isDigit09 = true := by
      unfold numPartOk at hnum
      exact (Bool.and_eq_true_iff.mp hnum).2
    have hns : ∀ ch ∈ s.data, isSpaceGo ch = false := by
      intro ch hch
      rw [hdecomp] at hch
      rcases List.mem_append.mp hch with hc | hc
      · rcases List.mem_cons.mp hc with hc | hc
        · subst hc
          exact not_space_of_upperOrDigit ch
            (by unfold isUpperOrDigit; rw [hupper.1]; rfl)
        · exact not_space_of_upperOrDigit ch
            (List.all_eq_true.mp hupper.2 ch hc)
      · rcases List.mem_cons.mp hc with hc | hc
        · subst hc; decide
        · exact not_space_of_upperOrDigit ch
            (by unfold isUpperOrDigit
                rw [List.all_eq_true.mp hdig ch hc]
                simp)
    have hne : s ≠ "" := by
      intro hs
      have hnil : s.data = [] := by rw [hs]
      rw [hdecomp] at hnil
      exact absurd hnil (by simp)
    refine ⟨⟨s⟩, ?_, rfl, ?_⟩
    · unfold NewTicketKey
      rw [trimSpace_eq_self s hns]
      rw [if_neg hne]
      rw [if_pos hmatch]
    · intro proj digits2 hde hnd
      unfold TicketKey.ProjectKey
      rw [hde]
      rw [takeWhile_append_cons _ proj '-' digits2
        (fun a ha => decide_eq_true (hnd a ha)) (by decide)]

/-- Witness for C4 at `"JMD-123"`: construction succeeds and the project
key is `"JMD"`. -/
theorem newTicketKey_valid_witness :
    ∃ tk : TicketKey, NewTicketKey "JMD-123" = .ok tk ∧ tk.value = "JMD-123" ∧
      ∀ proj digits : List Char, ("JMD-123" : String).data = proj ++ '-' :: digits →
        (∀ c ∈ proj, c ≠ '-') → tk.ProjectKey = String.mk proj :=
  newTicketKey_valid "JMD-123" rfl

/-- Writing through the executor makes the written store the executor's
view (whether or not a transaction is active). -/
theorem putExecutor_executorStore (db : DBState) (st : Store) :
    (db.putExecutor st).executorStore = st := by
  unfold DBState.putExecutor DBState.executorStore
  cases db.tx <;> rfl

/-- `putExecutor` during a transaction leaves the committed data untouched. -/
theorem putExecutor_committed_of_tx (db : DBState) (st : Store)
    (h : db.tx ≠ none) : (db.putExecutor st).committed = db.committed := by
  unfold DBState.putExecutor
  cases htx : db.tx with
  | none => exact absurd htx h
  | some _ => rfl

/-- C6: starting from a store with no row for a (non-empty) key `k` and no
active transaction, `BeginTransaction; SaveTicketState(k); Rollback` leaves
the committed store exactly as it was — a subsequent `GetTicketState(k)`
outside the transaction returns `NotFound`, and the committed tables are
unchanged row for row. -/
theorem transaction_rollback_no_trace (db : DBState) (state : TicketSyncState)
    (htx : db.tx = none)
    (habs : db.committed.tickets state.ticketKey = none)
    (hk : state.ticketKey ≠ "") :
    ∃ db1 db2 db3,
      BeginTransaction db = .ok db1 ∧
      SaveTicketState db1 state = .ok db2 ∧
      Rollback db2 = .ok db3 ∧
      db3.committed = db.committed ∧
      db3.tx = none ∧
      GetTicketState db3 state.ticketKey = .error .notFound := by
  have hdb1 : BeginTransaction db = .ok { db with tx := some db.committed } := by
    unfold BeginTransaction
    rw [htx]
  set db1 : DBState := { db with tx := some db.committed } with hdb1def
  have hsave : SaveTicketState db1 state =
      .ok (db1.putExecutor
        (db1.executorStore.upsertTicket state.ticketKey (rowOfState state))) := by
    unfold SaveTicketState
    rw [if_neg hk]
  set db2 : DBState :=
    db1.putExecutor
      (db1.executorStore.upsertTicket state.ticketKey (rowOfState state))
    with hdb2def
  have hdb2tx : db2.tx ≠ none := by
    rw [hdb2def, hdb1def]
    unfold DBState.putExecutor
    simp
  have hdb2comm : db2.committed = db.committed := by
    rw [hdb2def]
    rw [putExecutor_committed_of_tx db1 _ (by rw [hdb1def]; simp)]
  have hroll : Rollback db2 = .ok { db2 with tx := none } := by
    unfold Rollback
    cases h2 : db2.tx with
    | none => exact absurd h2 hdb2tx
    | some _ => rfl
  refine ⟨db1, db2, { db2 with tx := none }, hdb1, hsave, hroll, hdb2comm, rfl, ?_⟩
  unfold GetTicketState
  rw [if_neg hk]
  have : ({ db2 with tx := none } : DBState).executorStore = db.committed := by
    unfold DBState.executorStore
    simp [hdb2comm]
  rw [this, habs]

/-- Witness for C6: an empty database, rolling back a save of key
`"JMD-TX2"`. -/
theorem transaction_rollback_no_trace_witness :
    ∃ db1 db2 db3,
      BeginTransaction
        (DBState.mk (Store.mk (fun _ => none) (fun _ => none)) none) = .ok db1 ∧
      SaveTicketState db1 (TicketSyncState.mk "JMD-TX2" 0 0 0 true false) = .ok db2 ∧
      Rollback db2 = .ok db3 ∧
      db3.committed = (DBState.mk (Store.mk (fun _ => none) (fun _ => none)) none).committed ∧
      db3.tx = none ∧
      GetTicketState db3 (TicketSyncState.mk "JMD-TX2" 0 0 0 true false).ticketKey
        = .error .notFound :=
  transaction_rollback_no_trace
    (DBState.mk (Store.mk (fun _ => none) (fun _ => none)) none)
    (TicketSyncState.mk "JMD-TX2" 0 0 0 true false) rfl rfl (by decide)

/-- C8: `SaveTicketState` followed by `GetTicketState` on the same
(non-empty) key returns a state whose key and flags equal the saved ones
and whose timestamps agree with the saved ones at millisecond precision;
a zero ("never") timestamp is read back as zero, not as the Unix epoch or
any other instant. -/
theorem saveTicketState_roundTrip (db : DBState) (state : TicketSyncState)
    (hk : state.ticketKey ≠ "") :
    ∃ db' read,
      SaveTicketState db state = .ok db' ∧
      GetTicketState db' state.ticketKey = .ok read ∧
      read.ticketKey = state.ticketKey ∧
      read.isDirty = state.isDirty ∧
      read.conflictDetected = state.conflictDetected ∧
      read.lastSynced / 1000000 = state.lastSynced / 1000000 ∧
      read.lastModifiedLocal / 1000000 = state.lastModifiedLocal / 1000000 ∧
      read.lastModifiedJira / 1000000 = state.lastModifiedJira / 1000000 ∧
      (state.lastSynced = 0 →
        read.lastSynced = 0 ∧ read.lastSynced ≠ unixEpochNanos) ∧
      (state.lastModifiedLocal = 0 →
        read.lastModifiedLocal = 0 ∧ read.lastModifiedLocal ≠ unixEpochNanos) ∧
      (state.lastModifiedJira = 0 →
        read.lastModifiedJira = 0 ∧ read.lastModifiedJira ≠ unixEpochNanos) := by
  have hsave : SaveTicketState db state =
      .ok (db.putExecutor
        (db.executorStore.upsertTicket state.ticketKey (rowOfState state))) := by
    unfold SaveTicketState
    rw [if_neg hk]
  set db' : DBState :=
    db.putExecutor
      (db.executorStore.upsertTicket state.ticketKey (rowOfState state))
    with hdb'
  have hrow : db'.executorStore.tickets state.ticketKey
      = some (rowOfState state) := by
    rw [hdb', putExecutor_executorStore]
    unfold Store.upsertTicket
    simp
  have hparse : ∀ t : GoTime, parseTimestamp (formatTimestamp t) / 1000000
      = t / 1000000 := by
    intro t
    unfold formatTimestamp parseTimestamp
    by_cases h0 : t = 0
    · rw [if_pos h0, h0]
    · rw [if_neg h0]
      exact Nat.mul_div_cancel _ (by norm_num)
  have hzero : ∀ t : GoTime, t = 0 →
      parseTimestamp (formatTimestamp t) = 0 ∧
        parseTimestamp (formatTimestamp t) ≠ unixEpochNanos := by
    intro t h0
    subst h0
    refine ⟨rfl, ?_⟩
    unfold formatTimestamp parseTimestamp unixEpochNanos
    norm_num
  refine ⟨db',
    TicketSyncState.mk state.ticketKey
      (parseTimestamp (formatTimestamp state.lastSynced))
      (parseTimestamp (formatTimestamp state.lastModifiedLocal))
      (parseTimestamp (formatTimestamp state.lastModifiedJira))
      state.isDirty state.conflictDetected,
    hsave, ?_, rfl, rfl, rfl, hparse _, hparse _, hparse _,
    hzero _, hzero _, hzero _⟩
  unfold GetTicketState
  rw [if_neg hk, hrow]
  rfl

/-- Witness for C8: an empty database; the saved state carries a sub-
millisecond `lastModifiedLocal` and a zero `lastSynced`. -/
theorem saveTicketState_roundTrip_witness :
    ∃ db' read,
      SaveTicketState (DBState.mk (Store.mk (fun _ => none) (fun _ => none)) none)
        (TicketSyncState.mk "JMD-7" 0 1234567 2000000 true false) = .ok db' ∧
      GetTicketState db' "JMD-7" = .ok read ∧
      read.ticketKey = "JMD-7" ∧
      read.isDirty = true ∧
      read.conflictDetected = false ∧
      read.lastSynced / 1000000 = 0 / 1000000 ∧
      read.lastModifiedLocal / 1000000 = 1234567 / 1000000 ∧
      read.lastModifiedJira / 1000000 = 2000000 / 1000000 ∧
      ((0 : GoTime) = 0 → read.lastSynced = 0 ∧ read.lastSynced ≠ unixEpochNanos) ∧
      ((1234567 : GoTime) = 0 →
        read.lastModifiedLocal = 0 ∧ read.lastModifiedLocal ≠ unixEpochNanos) ∧
      ((2000000 : GoTime) = 0 →
        read.lastModifiedJira = 0 ∧ read.lastModifiedJira ≠ unixEpochNanos) :=
  saveTicketState_roundTrip
    (DBState.mk (Store.mk (fun _ => none) (fun _ => none)) none)
    (TicketSyncState.mk "JMD-7" 0 1234567 2000000 true false) (by decide)

/-- A lone `%` matches any text. -/
theorem sqlLike_percent_all (t : List Char) : sqlLike ['%'] t = true := by
  induction t with
  | nil =>
    unfold sqlLike
    simp [sqlLike]
  | cons x ts ih =>
    unfold sqlLike
    simp [ih]

/-- For a wildcard-free pattern block `p` over case-fold-fixed text, the
pattern `p%` matches exactly the texts that start with `p`. -/
theorem sqlLike_eq_matchesAt (p : List Char) :
    ∀ t : List Char, (∀ c ∈ p, c ≠ '%' ∧ c ≠ '_' ∧ foldAZ c = c) →
    (∀ c ∈ t, foldAZ c = c) →
    sqlLike (p ++ ['%']) t = matchesAt p t := by
  induction p with
  | nil =>
    intro t _ _
    simp [matchesAt, sqlLike_percent_all]
  | cons c ps ih =>
    intro t hp ht
    obtain ⟨hc1, hc2, hc3⟩ := hp c (by simp)
    cases t with
    | nil =>
      unfold sqlLike
      simp [matchesAt, hc1, hc2]
    | cons x ts =>
      have hM : matchesAt (c :: ps) (x :: ts)
          = ((x = c : Bool) && matchesAt ps ts) := rfl
      rw [hM]
      unfold sqlLike
      simp only [List.cons_append, if_neg hc1, if_neg hc2]
      rw [hc3, ht x (by simp)]
      rw [ih ts (fun a ha => hp a (by simp [ha])) (fun a ha => ht a (by simp [ha]))]

/-- A wildcard-free pattern block `p` followed by `%` matches every text
that starts with `p`. -/
theorem sqlLike_of_matchesAt (p : List Char) :
    ∀ t : List Char, (∀ c ∈ p, c ≠ '%' ∧ c ≠ '_') →
    matchesAt p t = true → sqlLike (p ++ ['%']) t = true := by
  induction p with
  | nil =>
    intro t _ _
    simp [sqlLike_percent_all]
  | cons c ps ih =>
    intro t hp hm
    obtain ⟨hc1, hc2⟩ := hp c (by simp)
    cases t with
    | nil => exact absurd hm (by simp [matchesAt])
    | cons x ts =>
      have hM : matchesAt (c :: ps) (x :: ts)
          = ((x = c : Bool) && matchesAt ps ts) := rfl
      rw [hM] at hm
      rcases Bool.and_eq_true_iff.mp hm with ⟨hx, hrest⟩
      have hx' : x = c := by simpa using hx
      unfold sqlLike
      simp only [List.cons_append, if_neg hc1, if_neg hc2]
      rw [hx']
      simp [ih ts (fun a ha => hp a (by simp [ha])) hrest]

/-- C7: with no caller transaction, wildcard-free lowercase-free project
key and lowercase-free stored ticket keys (all ticket keys this repository
writes are validated uppercase `PROJECT-NUMBER` strings), a present project
row makes `DeleteProjectState(p)` remove that project row and exactly the
ticket rows whose key starts with `p ++ "-"`, leaving every other project
row and ticket row unchanged; with the project row absent it returns
`NotFound` and — the cascade running in its own rolled-back transaction —
the database is exactly unchanged. -/
theorem deleteProjectState_cascade (db : DBState) (p : String)
    (htx : db.tx = none) (hp : p ≠ "")
    (hpc : ∀ c ∈ p.data, c ≠ '%' ∧ c ≠ '_' ∧ foldAZ c = c)
    (hkeys : ∀ k : String, db.committed.tickets k ≠ none →
      ∀ c ∈ k.data, foldAZ c = c) :
    (∀ r, db.committed.projects p = some r →
      ∃ db', DeleteProjectState db p = (db', none) ∧
        db'.tx = none ∧
        db'.committed.projects p = none ∧
        (∀ q, q ≠ p → db'.committed.projects q = db.committed.projects q) ∧
        (∀ k : String, matchesAt (p.data ++ ['-']) k.data = true →
          db'.committed.tickets k = none) ∧
        (∀ k : String, matchesAt (p.data ++ ['-']) k.data = false →
          db'.committed.tickets k = db.committed.tickets k))
    ∧ (db.committed.projects p = none →
        DeleteProjectState db p = (db, some DomainErr.notFound)) := by
  have hpat : ∀ c ∈ p.data ++ ['-'], c ≠ '%' ∧ c ≠ '_' ∧ foldAZ c = c := by
    intro c hc
    rcases List.mem_append.mp hc with hc | hc
    · exact hpc c hc
    · rcases List.mem_cons.mp hc with hc | hc
      · subst hc; refine ⟨by decide, by decide, by decide⟩
      · exact absurd hc (by simp)
  have hlike : ∀ k : String, db.committed.tickets k ≠ none →
      sqlLike (p.data ++ ['-', '%']) k.data = matchesAt (p.data ++ ['-']) k.data := by
    intro k hk
    have hassoc : p.data ++ ['-', '%'] = (p.data ++ ['-']) ++ ['%'] := by simp
    rw [hassoc]
    exact sqlLike_eq_matchesAt (p.data ++ ['-']) k.data hpat (hkeys k hk)
  constructor
  · intro r hproj
    have hdelProjEq : (db.committed.deleteTicketsLike p).projects p = some r := hproj
    have hdel : (db.committed.deleteTicketsLike p).deleteProject p =
        ({ db.committed.deleteTicketsLike p with
            projects := fun q => if q = p then none
              else (db.committed.deleteTicketsLike p).projects q },
          true) := by
      unfold Store.deleteProject
      rw [hdelProjEq]
    set st2 : Store :=
      { db.committed.deleteTicketsLike p with
        projects := fun q => if q = p then none
          else (db.committed.deleteTicketsLike p).projects q }
      with hst2
    have hrun : DeleteProjectState db p = ({ committed := st2, tx := none }, none) := by
      unfold DeleteProjectState
      rw [if_neg hp, htx]
      dsimp only
      rw [hdel]
    refine ⟨{ committed := st2, tx := none }, hrun, rfl, by simp [hst2], ?_, ?_, ?_⟩
    · intro q hq
      show (if q = p then none
        else (db.committed.deleteTicketsLike p).projects q) = db.committed.projects q
      rw [if_neg hq]
      rfl
    · intro k hm
      show (db.committed.deleteTicketsLike p).tickets k = none
      show (if sqlLike (p.data ++ ['-', '%']) k.data then none
        else db.committed.tickets k) = none
      by_cases hkn : db.committed.tickets k = none
      · split <;> [rfl; exact hkn]
      · rw [hlike k hkn, hm]
        rfl
    · intro k hm
      show (db.committed.deleteTicketsLike p).tickets k = db.committed.tickets k
      show (if sqlLike (p.data ++ ['-', '%']) k.data then none
        else db.committed.tickets k) = db.committed.tickets k
      by_cases hkn : db.committed.tickets k = none
      · split <;> [exact hkn.symm; rfl]
      · rw [hlike k hkn, hm]
        rfl
  · intro hproj
    have hdelProjEq : (db.committed.deleteTicketsLike p).projects p = none := hproj
    have hdel : (db.committed.deleteTicketsLike p).deleteProject p =
        (db.committed.deleteTicketsLike p, false) := by
      unfold Store.deleteProject
      rw [hdelProjEq]
    unfold DeleteProjectState
    rw [if_neg hp, htx]
    dsimp only
    rw [hdel]

/-- Witness for C7: a database holding project `"JMD"` with tickets
`"JMD-1"` and `"OTHER-1"`. -/
theorem deleteProjectState_cascade_witness :
    let row : TicketRow := TicketRow.mk .epochSentinel .epochSentinel .epochSentinel false false
    let db : DBState := DBState.mk
      (Store.mk
        (fun k => if k = "JMD-1" then some row
          else if k = "OTHER-1" then some row else none)
        (fun q => if q = "JMD" then some (ProjectRow.mk none none 2) else none))
      none
    (∀ r, db.committed.projects "JMD" = some r →
      ∃ db', DeleteProjectState db "JMD" = (db', none) ∧
        db'.tx = none ∧
        db'.committed.projects "JMD" = none ∧
        (∀ q, q ≠ "JMD" → db'.committed.projects q = db.committed.projects q) ∧
        (∀ k : String, matchesAt (("JMD" : String).data ++ ['-']) k.data = true →
          db'.committed.tickets k = none) ∧
        (∀ k : String, matchesAt (("JMD" : String).data ++ ['-']) k.data = false →
          db'.committed.tickets k = db.committed.tickets k))
    ∧ (db.committed.projects "JMD" = none →
        DeleteProjectState db "JMD" = (db, some DomainErr.notFound)) := by
  intro row db
  exact deleteProjectState_cascade db "JMD" rfl (by decide) (by decide)
    (by
      intro k hk
      by_cases h1 : k = "JMD-1"
      · subst h1; decide
      by_cases h2 : k = "OTHER-1"
      · subst h2; decide
      · exfalso
        apply hk
        show (if k = "JMD-1" then some row
          else if k = "OTHER-1" then some row else none) = none
        rw [if_neg h1, if_neg h2])

/-- C9 counterexample: the client-level mapper wraps a 500 failure
unreinterpreted, but the repository-level mapper — the one applied to every
error surfaced to the core — classifies the same failure as `NotFound`
because its message merely contains the digits `404`. -/
theorem mapHTTPError_reinterprets_counterexample :
    mapHTTPErrorResp (some 500) "saw 404 in body"
      = .wrapped (some 500) "saw 404 in body"
    ∧ mapHTTPErrorStr "jira api error (status 500): saw 404 in body"
        "fetch ticket"
      = .domainErr .notFound "fetch ticket" :=
  ⟨rfl, rfl⟩

/-- C9 (amended): the client-level mapper (`client.go`) translates by the
actual HTTP status — 404 → NotFound, 401/403 → Unauthorized, 400 →
InvalidInput, 409 → Conflict, anything else (or a missing response) is
wrapped unreinterpreted.  The repository-level mapper (`errors.go`), which
is what the core receives, classifies by searching the error text for the
digit substrings 404, 401, 403, 400, 409 in that priority order, so its
taxonomy tracks the message text rather than the status: a failure of any
status whose text contains one of those substrings is reinterpreted
accordingly, and only an error mentioning none of them is wrapped
unchanged. -/
theorem mapHTTPError_taxonomy (status : Nat) (err context : String) :
    (status = 404 → mapHTTPErrorResp (some status) err
      = .domainErr .notFound "ticket not found in jira")
    ∧ (status = 401 ∨ status = 403 → mapHTTPErrorResp (some status) err
      = .domainErr .unauthorized "insufficient permissions")
    ∧ (status = 409 → mapHTTPErrorResp (some status) err
      = .domainErr .conflict "ticket was modified by another user")
    ∧ (status = 400 → mapHTTPErrorResp (some status) err
      = .domainErr .invalidInput "invalid ticket data")
    ∧ (status ≠ 404 → status ≠ 401 → status ≠ 403 → status ≠ 409 →
        status ≠ 400 →
        mapHTTPErrorResp (some status) err = .wrapped (some status) err)
    ∧ mapHTTPErrorResp none err = .wrapped none err
    ∧ (containsStatusCode err "404" = true →
        mapHTTPErrorStr err context = .domainErr .notFound context)
    ∧ (containsStatusCode err "404" = false →
        containsStatusCode err "401" = true ∨ containsStatusCode err "403" = true →
        mapHTTPErrorStr err context = .domainErr .unauthorized context)
    ∧ (containsStatusCode err "404" = false →
        containsStatusCode err "401" = false →
        containsStatusCode err "403" = false →
        containsStatusCode err "400" = true →
        mapHTTPErrorStr err context = .domainErr .invalidInput context)
    ∧ (containsStatusCode err "404" = false →
        containsStatusCode err "401" = false →
        containsStatusCode err "403" = false →
        containsStatusCode err "400" = false →
        containsStatusCode err "409" = true →
        mapHTTPErrorStr err context = .domainErr .conflict context)
    ∧ (containsStatusCode err "404" = false →
        containsStatusCode err "401" = false →
        containsStatusCode err "403" = false →
        containsStatusCode err "400" = false →
        containsStatusCode err "409" = false →
        mapHTTPErrorStr err context = .wrapped context err) := by
  refine ⟨?_, ?_, ?_, ?_, ?_, rfl, ?_, ?_, ?_, ?_, ?_⟩
  · intro h; subst h; rfl
  · rintro (h | h) <;> subst h <;> rfl
  · intro h; subst h; rfl
  · intro h; subst h; rfl
  · intro h1 h2 h3 h4 h5
    simp [mapHTTPErrorResp, h1, h2, h3, h4, h5]
  · intro h
    simp [mapHTTPErrorStr, classifyStatusFromString, h]
  · rintro h0 (h | h)
    · simp [mapHTTPErrorStr, classifyStatusFromString, h0, h]
    · by_cases h1 : containsStatusCode err "401" = true
      · simp [mapHTTPErrorStr, classifyStatusFromString, h0, h1]
      · simp only [Bool.not_eq_true] at h1
        simp [mapHTTPErrorStr, classifyStatusFromString, h0, h1, h]
  · intro h0 h1 h3 h4
    simp [mapHTTPErrorStr, classifyStatusFromString, h0, h1, h3, h4]
  · intro h0 h1 h3 h4 h9
    simp [mapHTTPErrorStr, classifyStatusFromString, h0, h1, h3, h4, h9]
  · intro h0 h1 h3 h4 h9
    simp [mapHTTPErrorStr, classifyStatusFromString, h0, h1, h3, h4, h9]

/-- Witness for C9 at status 500 with a message containing no status
digits: both mappers wrap without reinterpretation. -/
theorem mapHTTPError_taxonomy_witness :
    mapHTTPErrorResp (some 500) "boom" = .wrapped (some 500) "boom"
    ∧ mapHTTPErrorStr "boom" "fetch" = .wrapped "fetch" "boom" := by
  obtain ⟨h1, h2, h3, h4, h5, h6, h7, h8, h9, h10, h11⟩ :=
    mapHTTPError_taxonomy 500 "boom" "fetch"
  exact ⟨h5 (by decide) (by decide) (by decide) (by decide) (by decide),
    h11 (by decide) (by decide) (by decide) (by decide) (by decide)⟩

/-- Splitting at a separator is unambiguous when the text before the
separator is separator-free. -/
theorem append_sep_inj (sep : Char) (a : List Char) :
    ∀ b x y : List Char, (∀ c ∈ a, c ≠ sep) → (∀ c ∈ b, c ≠ sep) →
    a ++ sep :: x = b ++ sep :: y → a = b ∧ x = y := by
  induction a with
  | nil =>
    intro b x y _ hb h
    cases b with
    | nil => simpa using h
    | cons d ds =>
      simp only [List.nil_append, List.cons_append, List.cons.injEq] at h
      exact absurd h.1.symm (hb d (by simp))
  | cons c cs ih =>
    intro b x y ha hb h
    cases b with
    | nil =>
      simp only [List.cons_append, List.nil_append, List.cons.injEq] at h
      exact absurd h.1 (ha c (by simp))
    | cons d ds =>
      simp only [List.cons_append, List.cons.injEq] at h
      obtain ⟨hcd, hrest⟩ := h
      obtain ⟨h1, h2⟩ := ih ds x y (fun u hu => ha u (by simp [hu]))
        (fun u hu => hb u (by simp [hu])) hrest
      exact ⟨by rw [hcd, h1], h2⟩

/-- One newline-terminated line of the hash pre-image determines its
payload and the remainder. -/
theorem hashLine_inj (pre : List Char) (s1 s2 : String) (r1 r2 : List Char)
    (h1 : NoNewline s1) (h2 : NoNewline s2)
    (h : pre ++ (s1.data ++ '\n' :: r1) = pre ++ (s2.data ++ '\n' :: r2)) :
    s1 = s2 ∧ r1 = r2 := by
  obtain ⟨ha, hb⟩ := append_sep_inj '\n' s1.data s2.data r1 r2 h1 h2
    (List.append_cancel_left h)
  exact ⟨String.ext ha, hb⟩

/-- `strings.Join` with `","` of newline-free strings is newline-free. -/
theorem joinComma_noNewline (l : List String) (h : ∀ s ∈ l, NoNewline s) :
    NoNewline (joinComma l) := by
  induction l with
  | nil =>
    intro c hc
    simp [joinComma] at hc
  | cons s rest ih =>
    cases rest with
    | nil => exact h s (by simp)
    | cons t r =>
      intro c hc
      have hd : (joinComma (s :: t :: r)).data
          = s.data ++ (",").data ++ (joinComma (t :: r)).data := by
        show (s ++ "," ++ joinComma (t :: r)).data = _
        simp [String.data_append]
      rw [hd] at hc
      rcases List.mem_append.mp hc with hc | hc
      · rcases List.mem_append.mp hc with hc | hc
        · exact h s (by simp) c hc
        · have : c = ',' := by simpa using hc
          subst this; decide
      · exact ih (fun u hu => h u (by simp [hu])) c hc

/-- The char list of the custom-field block, in separator-exposing shape. -/
theorem customFieldLines_cons_data (k v : String) (r : List (String × String)) :
    (customFieldLines ((k, v) :: r)).data =
      ("custom:").data ++ (k.data ++ '=' ::
        (v.data ++ '\n' :: (customFieldLines r).data)) := by
  show ("custom:" ++ k ++ "=" ++ v ++ "\n" ++ customFieldLines r).data = _
  have h1 : ("=" : String).data = ['='] := rfl
  have h2 : ("\n" : String).data = ['\n'] := rfl
  simp [String.data_append, h1, h2]

/-- The custom-field block determines the key/value list when keys and
values are newline-free and keys are `=`-free. -/
theorem customFieldLines_inj (l1 : List (String × String)) :
    ∀ l2 : List (String × String),
    (∀ kv ∈ l1, NoNewline kv.1 ∧ NoNewline kv.2 ∧ NoEquals kv.1) →
    (∀ kv ∈ l2, NoNewline kv.1 ∧ NoNewline kv.2 ∧ NoEquals kv.1) →
    customFieldLines l1 = customFieldLines l2 → l1 = l2 := by
  induction l1 with
  | nil =>
    intro l2 _ _ h
    cases l2 with
    | nil => rfl
    | cons kv r =>
      exfalso
      obtain ⟨k, v⟩ := kv
      have hd := congrArg String.data h
      rw [customFieldLines_cons_data] at hd
      have : ([] : List Char) = _ := hd
      simp at this
  | cons kv r ih =>
    intro l2 hh1 hh2 h
    obtain ⟨k1, v1⟩ := kv
    cases l2 with
    | nil =>
      exfalso
      have hd := congrArg String.data h
      rw [customFieldLines_cons_data] at hd
      have : _ = ([] : List Char) := hd
      simp at this
    | cons kv2 r2 =>
      obtain ⟨k2, v2⟩ := kv2
      obtain ⟨hk1nl, hv1nl, hk1eq⟩ := hh1 (k1, v1) (by simp)
      obtain ⟨hk2nl, hv2nl, hk2eq⟩ := hh2 (k2, v2) (by simp)
      have hd := congrArg String.data h
      rw [customFieldLines_cons_data, customFieldLines_cons_data] at hd
      obtain ⟨hk, hrest⟩ := append_sep_inj '=' k1.data k2.data _ _ hk1eq hk2eq
        (List.append_cancel_left hd)
      obtain ⟨hv, htail⟩ := append_sep_inj '\n' v1.data v2.data _ _ hv1nl hv2nl hrest
      have hkk : k1 = k2 := String.ext hk
      have hvv : v1 = v2 := String.ext hv
      have hrr : r = r2 := ih r2 (fun u hu => hh1 u (by simp [hu]))
        (fun u hu => hh2 u (by simp [hu])) (String.ext htail)
      rw [hkk, hvv, hrr]

/-- A `≤`-sorted pair list with pairwise-distinct keys is strictly sorted
by key. -/
theorem sorted_lt_of_sorted_le_nodup (l : List (String × String))
    (hs : List.Sorted cfKeyLE l) (hnd : (l.map Prod.fst).Nodup) :
    List.Sorted cfKeyLT l := by
  have hne : l.Pairwise (fun a b => a.1 ≠ b.1) := List.pairwise_map.mp hnd
  exact (hs.and hne).imp (fun hab => lt_of_le_of_ne hab.1 hab.2)

/-- Two permuted pair lists with (one of them) pairwise-distinct keys have
the same `sort.Strings`-sorted form. -/
theorem sortCF_eq_of_perm (l1 l2 : List (String × String))
    (hperm : l1.Perm l2) (hnd : (l1.map Prod.fst).Nodup) :
    sortCF l1 = sortCF l2 := by
  have hp1 : (sortCF l1).Perm l1 := List.perm_insertionSort cfKeyLE l1
  have hp2 : (sortCF l2).Perm l2 := List.perm_insertionSort cfKeyLE l2
  have hperm' : (sortCF l1).Perm (sortCF l2) := hp1.trans (hperm.trans hp2.symm)
  have hnd1 : ((sortCF l1).map Prod.fst).Nodup := ((hp1.map Prod.fst).nodup_iff).mpr hnd
  have hnd2 : ((sortCF l2).map Prod.fst).Nodup := by
    have h2 : (l2.map Prod.fst).Nodup := ((hperm.map Prod.fst).nodup_iff).mp hnd
    exact ((hp2.map Prod.fst).nodup_iff).mpr h2
  exact List.eq_of_perm_of_sorted hperm'
    (sorted_lt_of_sorted_le_nodup _ (List.sorted_insertionSort cfKeyLE l1) hnd1)
    (sorted_lt_of_sorted_le_nodup _ (List.sorted_insertionSort cfKeyLE l2) hnd2)

/-- The hash pre-image in separator-exposing shape. -/
theorem contentHashInput_data (t : Ticket) :
    (t.contentHashInput).data =
      ("summary:").data ++ (t.summary.data ++ '\n' ::
        (("description:").data ++ (t.description.data ++ '\n' ::
          (("status:").data ++ (t.status.data ++ '\n' ::
            (("priority:").data ++ (t.priority.data ++ '\n' ::
              (("assignee:").data ++ (t.assignee.data ++ '\n' ::
                (("labels:").data ++ ((joinComma t.labels).data ++ '\n' ::
                  (customFieldLines (sortCF t.customFields)).data))))))))))) := by
  unfold Ticket.contentHashInput
  have h2 : ("\n" : String).data = ['\n'] := rfl
  simp [String.data_append, h2]

/-- C3 counterexample: two tickets (constructor argument order: key,
summary, description, status, issueType, priority, assignee, reporter,
labels, created, updated, customFields) differing only in issue type and
reporter feed the identical byte string into MD5 — so their digests are
identical and changing those fields does not change the hash; labels
`["a,b"]` and `["a","b"]` likewise collide because labels are joined with
commas before hashing. -/
theorem contentHash_field_counterexample :
    ((Ticket.mk ⟨"JMD-1"⟩ "S" "D" "Do" "Bug" "P" "A" "R1" [] 0 0 []).contentHashInput
      = (Ticket.mk ⟨"JMD-1"⟩ "S" "D" "Do" "Story" "P" "A" "R2" [] 0 0 []).contentHashInput)
    ∧ (Ticket.mk ⟨"JMD-1"⟩ "S" "D" "Do" "Bug" "P" "A" "R1" [] 0 0 ([] : List (String × String))).issueType
      ≠ (Ticket.mk ⟨"JMD-1"⟩ "S" "D" "Do" "Story" "P" "A" "R2" [] 0 0 []).issueType
    ∧ (Ticket.mk ⟨"JMD-1"⟩ "S" "D" "Do" "Bug" "P" "A" "R1" [] 0 0 ([] : List (String × String))).reporter
      ≠ (Ticket.mk ⟨"JMD-1"⟩ "S" "D" "Do" "Story" "P" "A" "R2" [] 0 0 []).reporter
    ∧ ((Ticket.mk ⟨"JMD-1"⟩ "S" "D" "Do" "B" "P" "A" "R" ["a,b"] 0 0 []).contentHashInput
      = (Ticket.mk ⟨"JMD-1"⟩ "S" "D" "Do" "B" "P" "A" "R" ["a", "b"] 0 0 []).contentHashInput)
    ∧ (Ticket.mk ⟨"JMD-1"⟩ "S" "D" "Do" "B" "P" "A" "R" ["a,b"] 0 0 ([] : List (String × String))).labels
      ≠ (Ticket.mk ⟨"JMD-1"⟩ "S" "D" "Do" "B" "P" "A" "R" ["a", "b"] 0 0 []).labels :=
  ⟨rfl, by decide, by decide, rfl, by decide⟩

/-- C3 (amended): the content hash covers summary, description, status,
priority, assignee, comma-joined labels and the custom fields in sorted
key order — issue type and reporter are not hashed.  Determinism: two
tickets agreeing on those fields, with custom-field maps equal up to
insertion order (and keys distinct, the Go map invariant), feed MD5 the
same pre-image and so have the same digest.  Sensitivity: for field values
free of the serializer's separator characters (no newline in the scalar
fields, labels and custom values; no `=` in custom keys), equal digests
force equal summary, description, status, priority and assignee, the same
comma-join of labels, and custom-field maps equal as multisets — hence
changing any one of those covered fields changes the MD5 pre-image. -/
theorem contentHash_deterministic_and_sensitive :
    (∀ t1 t2 : Ticket,
      t1.summary = t2.summary → t1.description = t2.description →
      t1.status = t2.status → t1.priority = t2.priority →
      t1.assignee = t2.assignee → t1.labels = t2.labels →
      t1.customFields.Perm t2.customFields →
      (t1.customFields.map Prod.fst).Nodup →
      t1.contentHashInput = t2.contentHashInput)
    ∧ (∀ t1 t2 : Ticket,
      NoNewline t1.summary → NoNewline t1.description → NoNewline t1.status →
      NoNewline t1.priority → NoNewline t1.assignee →
      (∀ s ∈ t1.labels, NoNewline s) →
      (∀ kv ∈ t1.customFields, NoNewline kv.1 ∧ NoNewline kv.2 ∧ NoEquals kv.1) →
      NoNewline t2.summary → NoNewline t2.description → NoNewline t2.status →
      NoNewline t2.priority → NoNewline t2.assignee →
      (∀ s ∈ t2.labels, NoNewline s) →
      (∀ kv ∈ t2.customFields, NoNewline kv.1 ∧ NoNewline kv.2 ∧ NoEquals kv.1) →
      t1.contentHashInput = t2.contentHashInput →
      t1.summary = t2.summary ∧ t1.description = t2.description ∧
      t1.status = t2.status ∧ t1.priority = t2.priority ∧
      t1.assignee = t2.assignee ∧ joinComma t1.labels = joinComma t2.labels ∧
      t1.customFields.Perm t2.customFields) := by
  constructor
  · intro t1 t2 h1 h2 h3 h4 h5 h6 hperm hnd
    unfold Ticket.contentHashInput
    rw [h1, h2, h3, h4, h5, h6, sortCF_eq_of_perm _ _ hperm hnd]
  · intro t1 t2 a1 a2 a3 a4 a5 a6 a7 b1 b2 b3 b4 b5 b6 b7 h
    have hd := congrArg String.data h
    rw [contentHashInput_data, contentHashInput_data] at hd
    obtain ⟨hsum, hd⟩ := hashLine_inj _ _ _ _ _ a1 b1 hd
    obtain ⟨hdesc, hd⟩ := hashLine_inj _ _ _ _ _ a2 b2 hd
    obtain ⟨hstat, hd⟩ := hashLine_inj _ _ _ _ _ a3 b3 hd
    obtain ⟨hprio, hd⟩ := hashLine_inj _ _ _ _ _ a4 b4 hd
    obtain ⟨hass, hd⟩ := hashLine_inj _ _ _ _ _ a5 b5 hd
    obtain ⟨hlab, hd⟩ := hashLine_inj _ _ _ _ _
      (joinComma_noNewline _ a6) (joinComma_noNewline _ b6) hd
    have hcf : customFieldLines (sortCF t1.customFields)
        = customFieldLines (sortCF t2.customFields) := String.ext hd
    have hmem1 : ∀ kv ∈ sortCF t1.customFields,
        NoNewline kv.1 ∧ NoNewline kv.2 ∧ NoEquals kv.1 := by
      intro kv hkv
      exact a7 kv ((List.perm_insertionSort cfKeyLE t1.customFields).mem_iff.mp hkv)
    have hmem2 : ∀ kv ∈ sortCF t2.customFields,
        NoNewline kv.1 ∧ NoNewline kv.2 ∧ NoEquals kv.1 := by
      intro kv hkv
      exact b7 kv ((List.perm_insertionSort cfKeyLE t2.customFields).mem_iff.mp hkv)
    have hsorted : sortCF t1.customFields = sortCF t2.customFields :=
      customFieldLines_inj _ _ hmem1 hmem2 hcf
    refine ⟨hsum, hdesc, hstat, hprio, hass, hlab, ?_⟩
    have hp : t1.customFields.Perm (sortCF t1.customFields) :=
      (List.perm_insertionSort cfKeyLE t1.customFields).symm
    rw [hsorted] at hp
    exact hp.trans (List.perm_insertionSort cfKeyLE t2.customFields)

/-- Witness for C3: custom fields inserted in different orders hash
identically, and the sensitivity direction recovers the fields from the
pre-image at a concrete pair of tickets. -/
theorem contentHash_deterministic_and_sensitive_witness :
    ((Ticket.mk ⟨"JMD-1"⟩ "S" "D" "Do" "Bug" "P" "A" "R" ["x"] 0 0
        [("b", "2"), ("a", "1")]).contentHashInput
      = (Ticket.mk ⟨"JMD-1"⟩ "S" "D" "Do" "Bug" "P" "A" "R" ["x"] 0 0
        [("a", "1"), ("b", "2")]).contentHashInput)
    ∧ (("S" : String) = "S" ∧ ("D" : String) = "D" ∧ ("Do" : String) = "Do"
      ∧ ("P" : String) = "P" ∧ ("A" : String) = "A"
      ∧ joinComma ["x"] = joinComma ["x"]
      ∧ ([("b", "2"), ("a", "1")] : List (String × String)).Perm
          [("a", "1"), ("b", "2")]) := by
  have h := contentHash_deterministic_and_sensitive.1
    (Ticket.mk ⟨"JMD-1"⟩ "S" "D" "Do" "Bug" "P" "A" "R" ["x"] 0 0
      [("b", "2"), ("a", "1")])
    (Ticket.mk ⟨"JMD-1"⟩ "S" "D" "Do" "Bug" "P" "A" "R" ["x"] 0 0
      [("a", "1"), ("b", "2")])
    rfl rfl rfl rfl rfl rfl (by decide) (by decide)
  refine ⟨h, ?_⟩
  exact contentHash_deterministic_and_sensitive.2
    (Ticket.mk ⟨"JMD-1"⟩ "S" "D" "Do" "Bug" "P" "A" "R" ["x"] 0 0
      [("b", "2"), ("a", "1")])
    (Ticket.mk ⟨"JMD-1"⟩ "S" "D" "Do" "Bug" "P" "A" "R" ["x"] 0 0
      [("a", "1"), ("b", "2")])
    (by decide) (by decide) (by decide) (by decide) (by decide) (by decide)
    (by decide) (by decide) (by decide) (by decide) (by decide) (by decide)
    (by decide) (by decide) h
